import Mathlib

/-!
Verification development for the `rat` runner core.

This file gives a shallow embedding, in Lean 4, of the parts of the runner
that the frozen claims talk about:

* the Iceberg write strategies of `rat_runner/iceberg.py`
  (`merge_iceberg`, `delete_insert_iceberg`, `snapshot_iceberg`,
  `append_iceberg`, and the optimised delete+append fast path),
* the quality gate of `rat_runner/quality.py` (`has_error_failures`),
* the admission/registry transition system of `rat_runner/server.py`
  (`SubmitPipeline`, worker completion, `_maybe_retry`),
* the crash-marker reconciliation of `rat_runner/state_dir.py` and
  `rat_runner/server.py`,
* the script-sandbox AST validation of `rat_runner/python_exec.py`,
* the Nessie branch client of `rat_runner/nessie.py`
  (`retry_on_transient`, `merge_branch`, `delete_branch`),
* the status wire mapping of `rat_runner/server.py` (`_STATUS_TO_PROTO`,
  `GetRunStatus`).

Tables are modelled as lists of rows; a row carries the value of the
designated key column (the unique key, or the partition column for
`snapshot`) plus an opaque payload.  State that Python mutates is passed
explicitly; Python exceptions are modelled with `Except`/`Option`.
Backoff delays are modelled in integral milliseconds (the Python floats
0.5 s, 1.0 s, 2.0 s are exactly 500, 1000, 2000 ms).
-/

namespace RatRunner

/-! ## Row / table model for the Iceberg write strategies (iceberg.py) -/

/-- A row of an Arrow / Iceberg table, projected onto the single designated
key column (`key`) with the rest of the row collapsed into `payload`. -/
structure Row where
  key : Int
  payload : String
deriving DecidableEq

/-- `key ∈ {r.key | r ∈ rows}` — membership of a key among the key-column
values of a list of rows. -/
def keyIn (k : Int) (rows : List Row) : Bool :=
  rows.any (fun r => r.key == k)

/-- `_dedup_new_data`: deduplicate on the unique key, keeping the **last**
occurrence (the DuckDB `QUALIFY ROW_NUMBER() OVER (PARTITION BY key ORDER BY
_rn DESC) = 1`).  A row survives iff no later row has the same key. -/
def dedupNewData : List Row → List Row
  | [] => []
  | r :: rest => if keyIn r.key rest then dedupNewData rest else r :: dedupNewData rest

/-- Contents semantics of `merge_iceberg` (strategy `incremental`).

* Absent table (`NoSuchTableError`): falls back to `write_iceberg` with the
  **raw** `new_data` (iceberg.py lines 440–452 — note: no dedup on this path).
* Existing table: dedup `new_data` (last row wins), then delete every
  existing row whose key occurs in the deduped data and append the deduped
  data (the optimised `delete(In(...)) + append` path; the full-rewrite
  ANTI JOIN + UNION ALL fallback produces the same contents). -/
def mergeIceberg (table : Option (List Row)) (newData : List Row) : List Row :=
  match table with
  | none => newData
  | some existing =>
      let d := dedupNewData newData
      existing.filter (fun r => !keyIn r.key d) ++ d

/-- Contents semantics of `delete_insert_iceberg` (strategy `delete_insert`).
Unlike `merge_iceberg`, `new_data` is **not** deduplicated; all rows whose
key occurs in `new_data` are deleted, then `new_data` is appended. -/
def deleteInsertIceberg (table : Option (List Row)) (newData : List Row) : List Row :=
  match table with
  | none => newData
  | some existing => existing.filter (fun r => !keyIn r.key newData) ++ newData

/-- Contents semantics of `snapshot_iceberg` (strategy `snapshot`), with
`Row.key` standing for the partition-column value: partitions present in
`new_data` are replaced, untouched partitions are preserved. -/
def snapshotIceberg (table : Option (List Row)) (newData : List Row) : List Row :=
  match table with
  | none => newData
  | some existing => existing.filter (fun r => !keyIn r.key newData) ++ newData

/-- Contents semantics of `append_iceberg` (strategy `append_only`):
unconditional append; create-and-write when the table is absent. -/
def appendIceberg (table : Option (List Row)) (data : List Row) : List Row :=
  match table with
  | none => data
  | some existing => existing ++ data

/-! ## Fallible-operation model for `_try_optimized_delete_append`
(iceberg.py lines 312–365).  Each PyIceberg call that the `try` block makes
(the two scans, the delete, the append) can raise; a raised exception is an
`Except.error` and makes the function return `None` so the caller falls back
to the full-rewrite path. -/

/-- An Iceberg table handle: its current rows plus flags saying whether the
scan / delete / append operations succeed on it (a raising PyIceberg call is
modelled by the corresponding flag being `false`). -/
structure TableOps where
  rows : List Row
  scanOk : Bool
  deleteOk : Bool
  appendOk : Bool
deriving DecidableEq

/-- `new_data` as passed to the fast path: its column names plus its rows
projected onto the key column. -/
structure ArrowTable where
  columnNames : List String
  rows : List Row
deriving DecidableEq

/-- `_build_delete_filter_single_key`: the deduplicated (`list(set(...))`)
key-column values of `new_data`, used as the `In(key_col, values)` predicate. -/
def keyValues (t : ArrowTable) : List Int :=
  (t.rows.map Row.key).dedup

/-- `table.scan().to_arrow()` — full scan, may raise. -/
def scanAll (t : TableOps) : Except String (List Row) :=
  if t.scanOk then .ok t.rows else .error "scan failed"

/-- `table.scan(row_filter=In(key, values)).to_arrow()` — filtered scan. -/
def scanFiltered (t : TableOps) (ks : List Int) : Except String (List Row) :=
  if t.scanOk then .ok (t.rows.filter (fun r => ks.contains r.key)) else .error "scan failed"

/-- `table.delete(In(key, values))` — removes every row whose key is in `ks`. -/
def tableDelete (t : TableOps) (ks : List Int) : Except String TableOps :=
  if t.deleteOk then .ok { t with rows := t.rows.filter (fun r => !ks.contains r.key) }
  else .error "delete failed"

/-- `table.append(new_data)`. -/
def tableAppend (t : TableOps) (d : List Row) : Except String TableOps :=
  if t.appendOk then .ok { t with rows := t.rows ++ d } else .error "append failed"

/-- `_try_optimized_delete_append`: `None` (here `none`) when the key is not
a single column, when the key column is missing from `new_data`, or when any
call inside the `try` block raises; otherwise the computed total row count
(`existing_count - deleted_count + len(new_data)`) together with the table
state after delete+append. -/
def tryOptimizedDeleteAppend (t : TableOps) (newData : ArrowTable)
    (uniqueKey : List String) : Option (Nat × TableOps) :=
  match uniqueKey with
  | [keyCol] =>
      if newData.columnNames.contains keyCol then
        match scanAll t with
        | .error _ => none
        | .ok existing =>
            match scanFiltered t (keyValues newData) with
            | .error _ => none
            | .ok deleted =>
                match tableDelete t (keyValues newData) with
                | .error _ => none
                | .ok t1 =>
                    match tableAppend t1 newData.rows with
                    | .error _ => none
                    | .ok t2 =>
                        some (existing.length - deleted.length + newData.rows.length, t2)
      else none
  | _ => none

/-- `_delete_insert_full_rewrite`: ANTI JOIN + UNION ALL in DuckDB, then
`table.overwrite(merged)`; returns the new table state and `len(merged)`. -/
def deleteInsertFullRewrite (t : TableOps) (newData : ArrowTable) : TableOps × Nat :=
  let merged := t.rows.filter (fun r => !keyIn r.key newData.rows) ++ newData.rows
  ({ t with rows := merged }, merged.length)

/-- The dispatch inside `delete_insert_iceberg` on an existing table: try the
optimised path; on `None` fall back to the full rewrite. -/
def deleteInsertDispatch (t : TableOps) (newData : ArrowTable)
    (uniqueKey : List String) : TableOps × Nat :=
  match tryOptimizedDeleteAppend t newData uniqueKey with
  | some (n, t2) => (t2, n)
  | none => deleteInsertFullRewrite t newData

/-! ## Quality gate (quality.py) -/

/-- The fields of `QualityTestResult` that the gate inspects (severity is
`"error"` or `"warn"`, status is `"pass"`, `"fail"` or `"error"`). -/
structure QualityTestResult where
  testName : String
  severity : String
  status : String
  rowCount : Nat
deriving DecidableEq

/-- `has_error_failures` (quality.py lines 253–255): any result with severity
`error` and status `fail` or `error`. -/
def hasErrorFailures (results : List QualityTestResult) : Bool :=
  results.any (fun r => r.severity == "error" && (r.status == "fail" || r.status == "error"))

/-! ## Run status and registry (models.py, server.py) -/

/-- `RunStatus` (models.py). -/
inductive RunStatus where
  | pending
  | running
  | success
  | failed
  | cancelled
deriving DecidableEq

/-- `RunStatus.is_terminal` (models.py lines 37–38). -/
def isTerminal : RunStatus → Bool
  | .success => true
  | .failed => true
  | .cancelled => true
  | _ => false

/-- The proto `RunStatus` wire enum (`common_pb2`): it has **no** cancelled
value. -/
inductive ProtoRunStatus where
  | unspecified
  | pending
  | running
  | success
  | failed
deriving DecidableEq

/-- `_STATUS_TO_PROTO` (server.py lines 86–92): total on the internal enum;
`CANCELLED` maps to `RUN_STATUS_FAILED` because the proto has no cancelled
value. -/
def statusToProto : RunStatus → ProtoRunStatus
  | .pending => .pending
  | .running => .running
  | .success => .success
  | .failed => .failed
  | .cancelled => .failed

/-- The registry entry (`RunState`) fields reconciliation and `GetRunStatus`
care about. -/
structure RegRun where
  runId : String
  nspace : String
  layer : String
  pipelineName : String
  trigger : String
  status : RunStatus
  error : String
deriving DecidableEq

/-- Registry lookup — `self._runs.get(run_id)`. -/
def lookupRun (reg : List (String × RegRun)) (k : String) : Option RegRun :=
  (reg.find? (fun p => p.1 == k)).map (fun p => p.2)

/-- Registry insert — `self._runs[run_id] = run` (dict assignment: replace
the existing binding, otherwise add one). -/
def insertRun : List (String × RegRun) → String → RegRun → List (String × RegRun)
  | [], k, v => [(k, v)]
  | p :: rest, k, v => if p.1 == k then (k, v) :: rest else p :: insertRun rest k v

/-- `GetRunStatus` (server.py lines 400–425), restricted to the status field:
returns the wire status via `_STATUS_TO_PROTO` (or `none` for NOT_FOUND) and
the registry, which the read leaves untouched. -/
def getRunStatus (reg : List (String × RegRun)) (runId : String) :
    Option ProtoRunStatus × List (String × RegRun) :=
  match lookupRun reg runId with
  | none => (none, reg)
  | some run => (some (statusToProto run.status), reg)

/-! ## Crash markers (state_dir.py lines 67–97, server.py lines 166–202) -/

/-- A crash marker recovered from a marker file. -/
structure CrashedRun where
  runId : String
  nspace : String
  layer : String
  pipelineName : String
  trigger : String
deriving DecidableEq

/-- A JSON marker file in the state directory.  `fields = none` models a
file whose contents are not valid JSON (`json.JSONDecodeError`); otherwise
`fields` is the decoded JSON object as key/value pairs. -/
structure MarkerFile where
  fileName : String
  fields : Option (List (String × String))
deriving DecidableEq

/-- JSON object field access `data[k]`. -/
def lookupField (fs : List (String × String)) (k : String) : Option String :=
  (fs.find? (fun p => p.1 == k)).map (fun p => p.2)

/-- Parsing one marker file: `json.loads` followed by the five keyed field
accesses; a `JSONDecodeError` or `KeyError` makes the marker corrupt
(`none`). -/
def parseMarker (m : MarkerFile) : Option CrashedRun :=
  match m.fields with
  | none => none
  | some fs =>
      match lookupField fs "run_id", lookupField fs "namespace", lookupField fs "layer",
            lookupField fs "pipeline_name", lookupField fs "trigger" with
      | some a, some b, some c, some d, some e => some ⟨a, b, c, d, e⟩
      | _, _, _, _, _ => none

/-- `collect_crashed_runs`: every marker file is parsed and then unlinked
(valid markers on line 90, corrupt ones in the handler), so the recovered
runs are the parseable markers and **no** marker file remains. -/
def collectCrashedRuns (files : List MarkerFile) : List CrashedRun × List MarkerFile :=
  (files.filterMap parseMarker, [])

/-- The fixed reconciliation error written by `_reconcile_crashed_runs`
(server.py lines 190–193). -/
def reconcileErrorText : String :=
  "Runner process restarted — run was in-flight when the previous process crashed"

/-- The `RunState` built for a crashed run: marker fields, status FAILED,
fixed error text. -/
def crashedToRun (cr : CrashedRun) : RegRun :=
  ⟨cr.runId, cr.nspace, cr.layer, cr.pipelineName, cr.trigger, .failed, reconcileErrorText⟩

/-- `_reconcile_crashed_runs`: register every recovered crashed run in the
registry (`self._runs[cr.run_id] = run`). -/
def reconcileCrashedRuns (reg : List (String × RegRun)) (files : List MarkerFile) :
    List (String × RegRun) :=
  ((collectCrashedRuns files).1).foldl (fun acc cr => insertRun acc cr.runId (crashedToRun cr)) reg

/-! ## Admission transition system (server.py `SubmitPipeline`,
worker status transitions, `_maybe_retry`) -/

/-- One event against the run registry:

* `submit` — `SubmitPipeline`: under the registry lock, count non-terminal
  runs; reject (registry unchanged) when at or above the cap, else insert
  the run as Pending (server.py lines 351–360);
* `dispatch` — the worker moves a Pending run to Running;
* `finish` — the worker records a terminal status (Success / Failed /
  Cancelled) on a run;
* `retryResume` — `_maybe_retry` resets a Failed run to Running for a retry
  attempt (server.py lines 287–297). -/
inductive REvent where
  | submit (id : String)
  | dispatch (id : String)
  | finish (id : String) (st : RunStatus)
  | retryResume (id : String)
deriving DecidableEq

/-- The registry restricted to run statuses. -/
def activeCount (reg : List (String × RunStatus)) : Nat :=
  (reg.filter (fun p => !isTerminal p.2)).length

/-- One step of the registry under an event (see `REvent`). -/
def applyEvent (cap : Nat) (reg : List (String × RunStatus)) : REvent → List (String × RunStatus)
  | .submit id =>
      if cap ≤ activeCount reg then reg else (id, .pending) :: reg
  | .dispatch id =>
      reg.map (fun p => if p.1 == id && p.2 == RunStatus.pending then (p.1, .running) else p)
  | .finish id st =>
      if isTerminal st then reg.map (fun p => if p.1 == id then (p.1, st) else p) else reg
  | .retryResume id =>
      reg.map (fun p => if p.1 == id && p.2 == RunStatus.failed then (p.1, .running) else p)

/-- Run a sequence of events from the empty registry. -/
def runEvents (cap : Nat) (evts : List REvent) : List (String × RunStatus) :=
  evts.foldl (applyEvent cap) []

/-- Whether an event is a `_maybe_retry` resumption. -/
def isRetryEvent : REvent → Bool
  | .retryResume _ => true
  | _ => false

/-! ## Script sandbox AST validation (python_exec.py lines 109–201) -/

/-- A fragment of the Python expression AST that `_validate_source` walks.
Call arguments beyond the callee are represented as separate subexpressions
of the enclosing statement (`call` keeps only the callee, which is all the
dunder checks need). -/
inductive PyExpr where
  | name (s : String)
  | strLit (s : String)
  | intLit (n : Int)
  | attr (obj : PyExpr) (a : String)
  | subscript (obj : PyExpr) (idx : PyExpr)
  | call (f : PyExpr)
deriving DecidableEq

/-- A Python statement: a bare expression or an assignment. -/
inductive PyStmt where
  | exprStmt (e : PyExpr)
  | assign (target : String) (e : PyExpr)
deriving DecidableEq

/-- `_BLOCKED_DUNDERS` (python_exec.py lines 109–135). -/
def blockedDunders : List String :=
  ["__class__", "__bases__", "__base__", "__mro__", "__subclasses__", "__globals__",
   "__code__", "__builtins__", "__import__", "__loader__", "__spec__", "__qualname__",
   "__func__", "__self__", "__wrapped__", "__closure__", "__dict__", "__init_subclass__",
   "__set_name__", "__reduce__", "__reduce_ex__", "__getstate__", "__setstate__"]

/-- `_DunderAccessChecker`: raises on an `Attribute` node whose attribute
name is blocked and on a `Subscript` node whose slice is a blocked string
constant; `generic_visit` recurses into children. -/
def visitorViolation : PyExpr → Bool
  | .name _ => false
  | .strLit _ => false
  | .intLit _ => false
  | .attr obj a => blockedDunders.contains a || visitorViolation obj
  | .subscript obj idx =>
      (match idx with
       | .strLit s => blockedDunders.contains s
       | _ => false) || visitorViolation obj || visitorViolation idx
  | .call f => visitorViolation f

/-- The `ast.walk` pass of `_validate_source` (lines 193–201): raises on any
string `Constant` whose value is a blocked dunder, anywhere in the tree. -/
def constantViolation : PyExpr → Bool
  | .name _ => false
  | .strLit s => blockedDunders.contains s
  | .intLit _ => false
  | .attr obj _ => constantViolation obj
  | .subscript obj idx => constantViolation obj || constantViolation idx
  | .call f => constantViolation f

/-- The expression carried by a statement. -/
def stmtExpr : PyStmt → PyExpr
  | .exprStmt e => e
  | .assign _ e => e

/-- `_validate_source`: run the dunder visitor, then the constant walk;
either raising yields a `_SandboxViolationError`. -/
def validateSource (script : List PyStmt) : Except String Unit :=
  if script.any (fun st => visitorViolation (stmtExpr st)) then
    .error "sandbox violation: blocked dunder access"
  else if script.any (fun st => constantViolation (stmtExpr st)) then
    .error "sandbox violation: blocked dunder string literal"
  else .ok ()

/-- `execute_python_pipeline`, up to the `exec` call: the source is validated
**before** execution; `.ok body` means the script body reached `exec`,
`.error` means it was rejected and never ran. -/
def executePythonPipeline (script : List PyStmt) : Except String (List PyStmt) :=
  match validateSource script with
  | .error e => .error e
  | .ok _ => .ok script

/-- The claim's notion of a blocked occurrence **inside an expression**:
attribute access with a blocked name, or a string-literal subscript key with
a blocked value (recursively). -/
def exprSpecViolation : PyExpr → Bool
  | .name _ => false
  | .strLit _ => false
  | .intLit _ => false
  | .attr obj a => blockedDunders.contains a || exprSpecViolation obj
  | .subscript obj idx =>
      (match idx with
       | .strLit s => blockedDunders.contains s
       | _ => false) || exprSpecViolation obj || exprSpecViolation idx
  | .call f => exprSpecViolation f

/-- The claim's notion of a blocked occurrence in a statement: one of the
expression forms, or a free-standing blocked string literal. -/
def specViolationStmt (st : PyStmt) : Bool :=
  (match st with
   | .exprStmt (.strLit s) => blockedDunders.contains s
   | _ => false)
  || exprSpecViolation (stmtExpr st)

/-! ## Nessie branch client (nessie.py) -/

/-- A failure of one HTTP call: `urllib.error.HTTPError` with its status
code, `urllib.error.URLError` (connection refused, DNS, ...), or a socket
timeout. -/
inductive NetError where
  | httpError (code : Nat)
  | urlConnError
  | timeoutError
deriving DecidableEq

/-- Outcome of one HTTP call. -/
inductive CallOutcome where
  | success
  | failure (e : NetError)
deriving DecidableEq

/-- `_is_transient_error` (nessie.py lines 24–36): 5xx, connection-level
`URLError`, or timeout; 4xx is not transient. -/
def isTransientError : NetError → Bool
  | .httpError code => decide (500 ≤ code)
  | .urlConnError => true
  | .timeoutError => true

/-- `e.code == 404` on an `HTTPError`. -/
def isHttp404 : NetError → Bool
  | .httpError code => code == 404
  | _ => false

/-- The retry loop of `retry_on_transient` (nessie.py lines 56–86), started
at attempt index `k` with `remaining` retries left.  `attempts n` is the
outcome of the n-th invocation of the wrapped function; the second component
collects the backoff delays slept, in milliseconds
(`initial_backoff * 2 ** attempt`). -/
def retryFrom (attempts : Nat → CallOutcome) (initialBackoffMs : Nat) :
    Nat → Nat → CallOutcome × List Nat
  | k, 0 => (attempts k, [])
  | k, remaining + 1 =>
      match attempts k with
      | .success => (.success, [])
      | .failure e =>
          if isTransientError e then
            let rest := retryFrom attempts initialBackoffMs (k + 1) remaining
            (rest.1, initialBackoffMs * 2 ^ k :: rest.2)
          else (.failure e, [])

/-- `retry_on_transient(max_retries=3, initial_backoff=0.5)` applied to a
function whose n-th call has outcome `attempts n`. -/
def retryOnTransient (maxRetries : Nat) (initialBackoffMs : Nat)
    (attempts : Nat → CallOutcome) : CallOutcome × List Nat :=
  retryFrom attempts initialBackoffMs 0 maxRetries

/-- The Nessie server's responses, per endpoint and per attempt index:
`getRef n` is the outcome of the n-th `GET /trees/{branch}` issued by
`_get_reference`, `mergePost n` of the n-th merge POST, `deleteReq n` of
the n-th branch DELETE. -/
structure NessieEnv where
  getRef : Nat → CallOutcome
  mergePost : Nat → CallOutcome
  deleteReq : Nat → CallOutcome

/-- `merge_branch` (nessie.py lines 160–182): decorated with
`retry_on_transient`; its body first resolves the source reference through
the (itself retried) `_get_reference`, then issues the merge POST.  There is
**no** handling of HTTP 404 anywhere in it. -/
def mergeBranch (env : NessieEnv) : CallOutcome × List Nat :=
  retryOnTransient 3 500 (fun k =>
    match (retryOnTransient 3 500 env.getRef).1 with
    | .failure e => .failure e
    | .success => env.mergePost k)

/-- `delete_branch` (nessie.py lines 184–207): **not** decorated with
`retry_on_transient`.  The initial `_get_reference` (itself retried) has a
404 caught and turned into a normal return; the DELETE request is issued
exactly once, with its own 404 caught; every other error propagates. -/
def deleteBranch (env : NessieEnv) : CallOutcome :=
  match (retryOnTransient 3 500 env.getRef).1 with
  | .failure e => if isHttp404 e then .success else .failure e
  | .success =>
      match env.deleteReq 0 with
      | .failure e => if isHttp404 e then .success else .failure e
      | .success => .success

/-! ## Concrete instances used by witnesses and counterexamples -/

/-- A table handle on which every PyIceberg operation succeeds. -/
def c6TableOk : TableOps :=
  { rows := [⟨1, "a"⟩, ⟨2, "b"⟩], scanOk := true, deleteOk := true, appendOk := true }

/-- The same table but with a failing scan (the first call of the `try`
block raises). -/
def c6TableBad : TableOps :=
  { rows := [⟨1, "a"⟩, ⟨2, "b"⟩], scanOk := false, deleteOk := true, appendOk := true }

/-- New data keyed on column `k`, touching key 2 and adding key 3. -/
def c6NewData : ArrowTable :=
  { columnNames := ["k", "v"], rows := [⟨2, "B"⟩, ⟨3, "C"⟩] }

/-- The table state the fast path leaves behind on `c6TableOk`/`c6NewData`. -/
def c6After : TableOps :=
  { rows := [⟨1, "a"⟩, ⟨2, "B"⟩, ⟨3, "C"⟩], scanOk := true, deleteOk := true, appendOk := true }

/-- A well-formed crash marker file for run `r1`. -/
def c4Marker : MarkerFile :=
  { fileName := "r1.json",
    fields := some [("run_id", "r1"), ("namespace", "acme"), ("layer", "silver"),
                    ("pipeline_name", "orders"), ("trigger", "manual")] }

/-- The crashed run recorded in `c4Marker`. -/
def c4Crashed : CrashedRun :=
  ⟨"r1", "acme", "silver", "orders", "manual"⟩

/-- A Nessie server that answers 404 to every reference lookup. -/
def c7Env404 : NessieEnv :=
  { getRef := fun _ => .failure (.httpError 404),
    mergePost := fun _ => .success,
    deleteReq := fun _ => .success }

/-- A Nessie server on which the reference lookup succeeds but the branch
DELETE answers 404. -/
def c7EnvDel404 : NessieEnv :=
  { getRef := fun _ => .success,
    mergePost := fun _ => .success,
    deleteReq := fun _ => .failure (.httpError 404) }

/-- A Nessie server whose branch DELETE fails once with a 503 and would
succeed on any retry. -/
def c8EnvFlaky : NessieEnv :=
  { getRef := fun _ => .success,
    mergePost := fun _ => .success,
    deleteReq := fun n => if n = 0 then .failure (.httpError 503) else .success }

/-- Attempt outcomes that fail transiently three times, then succeed. -/
def c8Attempts : Nat → CallOutcome
  | 0 => .failure .timeoutError
  | 1 => .failure .urlConnError
  | 2 => .failure (.httpError 500)
  | _ => .success

/-- The sandbox-escape script of spec scenario 6:
`result = pa.table(...)` followed by `y = object.__subclasses__()`. -/
def c5Script : List PyStmt :=
  [.assign "result" (.call (.attr (.name "pa") "table")),
   .assign "y" (.call (.attr (.name "object") "__subclasses__"))]

/-- A duplicate-keyed incremental input: two rows with unique key 1. -/
def c1DupInput : List Row :=
  [⟨1, "a"⟩, ⟨1, "b"⟩]

/-- The event trace that exceeds the admission cap via a retry: run `a`
fails, run `b` is admitted while `a` is terminal, then `_maybe_retry`
resumes `a`. -/
def c3Trace : List REvent :=
  [.submit "a", .finish "a" .failed, .submit "b", .retryResume "a"]

/-- A quality result with severity `warn` and status `fail`. -/
def c2WarnFail : QualityTestResult :=
  ⟨"row_count_check", "warn", "fail", 5⟩

/-- A registry holding one cancelled run. -/
def c10Run : RegRun :=
  ⟨"r9", "acme", "gold", "daily", "cron", .cancelled, ""⟩

/-! # Theorems -/

/-! ## Write-strategy lemmas -/

theorem keyIn_cons (k : Int) (r : Row) (l : List Row) :
    keyIn k (r :: l) = ((r.key == k) || keyIn k l) := by
  simp [keyIn]

theorem keyIn_dedupNewData (k : Int) (l : List Row) :
    keyIn k (dedupNewData l) = keyIn k l := by
  induction l with
  | nil => rfl
  | cons r rest ih =>
      rw [dedupNewData]
      by_cases h : keyIn r.key rest = true
      · rw [if_pos h, ih, keyIn_cons]
        by_cases hk : r.key = k
        · subst hk
          simp [h]
        · have hne : (r.key == k) = false := by simpa using hk
          simp [hne]
      · rw [if_neg h, keyIn_cons, keyIn_cons, ih]

/-- Rows that all carry keys present in `d` are entirely removed by the
delete filter built from `d`; rows already surviving that filter survive it
again. -/
theorem filter_append_self (existing d : List Row)
    (hall : ∀ r ∈ d, keyIn r.key d = true) :
    (existing.filter (fun r => !keyIn r.key d) ++ d).filter
        (fun r => !keyIn r.key d)
      = existing.filter (fun r => !keyIn r.key d) := by
  rw [List.filter_append, List.filter_filter]
  have h₁ : existing.filter (fun r => !keyIn r.key d && !keyIn r.key d)
      = existing.filter (fun r => !keyIn r.key d) := by
    apply List.filter_congr
    intro r _
    cases keyIn r.key d <;> rfl
  have h₂ : d.filter (fun r => !keyIn r.key d) = [] := by
    apply List.filter_eq_nil_iff.mpr
    intro r hr
    simp [hall r hr]
  rw [h₁, h₂, List.append_nil]

theorem mem_dedupNewData (r : Row) (l : List Row) (h : r ∈ dedupNewData l) :
    r ∈ l := by
  induction l with
  | nil => simp [dedupNewData] at h
  | cons x rest ih =>
      rw [dedupNewData] at h
      by_cases hx : keyIn x.key rest = true
      · rw [if_pos hx] at h
        exact List.mem_cons_of_mem x (ih h)
      · rw [if_neg hx] at h
        rcases List.mem_cons.mp h with h1 | h2
        · exact h1 ▸ List.mem_cons_self x rest
        · exact List.mem_cons_of_mem x (ih h2)

/-- Any list satisfies the self-membership condition of
`filter_append_self`. -/
theorem keyIn_of_mem (d : List Row) : ∀ r ∈ d, keyIn r.key d = true := by
  intro r hr
  simp only [keyIn, List.any_eq_true]
  exact ⟨r, hr, by simp⟩

/-- `delete_insert_iceberg` is idempotent on table contents, for any initial
table (present or absent). -/
theorem deleteInsertIceberg_idempotent (table : Option (List Row)) (d : List Row) :
    deleteInsertIceberg (some (deleteInsertIceberg table d)) d
      = deleteInsertIceberg table d := by
  cases table with
  | none =>
      simp only [deleteInsertIceberg]
      have h : d.filter (fun r => !keyIn r.key d) = [] := by
        apply List.filter_eq_nil_iff.mpr
        intro r hr
        simp [keyIn_of_mem d r hr]
      simp [h]
  | some existing =>
      simp only [deleteInsertIceberg]
      rw [filter_append_self existing d (keyIn_of_mem d)]

/-- `snapshot_iceberg` is idempotent on table contents, for any initial
table (present or absent). -/
theorem snapshotIceberg_idempotent (table : Option (List Row)) (d : List Row) :
    snapshotIceberg (some (snapshotIceberg table d)) d = snapshotIceberg table d := by
  simpa [snapshotIceberg, deleteInsertIceberg] using deleteInsertIceberg_idempotent table d

/-- `merge_iceberg` is idempotent on table contents **when the table already
exists** before the first run. -/
theorem mergeIceberg_idempotent_existing (existing d : List Row) :
    mergeIceberg (some (mergeIceberg (some existing) d)) d
      = mergeIceberg (some existing) d := by
  simp only [mergeIceberg]
  rw [filter_append_self existing (dedupNewData d) (keyIn_of_mem (dedupNewData d))]

/-- C1: re-running `incremental` is **not** idempotent when the first run
created the table and the input carries duplicate unique-key rows: the
first-run fallback (`write_iceberg` at iceberg.py lines 442–452) writes the
raw input, while the second run deduplicates it, so the contents differ —
contradicting the idempotency promised by the spec and by the module's own
docstrings.  Concretely for input `[(1,"a"), (1,"b")]` on key column `id`:
the first execution leaves both rows, the second leaves only `(1,"b")`. -/
theorem claim_C1_incremental_rerun_diverges_on_fresh_table :
    mergeIceberg none c1DupInput = [⟨1, "a"⟩, ⟨1, "b"⟩] ∧
    mergeIceberg (some (mergeIceberg none c1DupInput)) c1DupInput = [⟨1, "b"⟩] ∧
    mergeIceberg (some (mergeIceberg none c1DupInput)) c1DupInput
      ≠ mergeIceberg none c1DupInput := by
  refine ⟨rfl, rfl, ?_⟩
  decide

/-- C9 counterexample: against a table that already holds one row, running
`append_only` twice with a one-row input yields 3 rows, not twice the 2 rows
that a single execution yields — the doubling only holds from an empty or
absent table. -/
theorem claim_C9_counterexample :
    (appendIceberg (some [⟨1, "a"⟩]) [⟨2, "b"⟩]).length = 2 ∧
    (appendIceberg (some (appendIceberg (some [⟨1, "a"⟩]) [⟨2, "b"⟩])) [⟨2, "b"⟩]).length = 3 ∧
    (appendIceberg (some (appendIceberg (some [⟨1, "a"⟩]) [⟨2, "b"⟩])) [⟨2, "b"⟩]).length
      ≠ 2 * (appendIceberg (some [⟨1, "a"⟩]) [⟨2, "b"⟩]).length := by
  refine ⟨rfl, rfl, ?_⟩
  decide

/-- C9 (amended): for an `append_only` run executed twice with the same
input against an initially absent (or empty) table, the final table has
exactly twice as many rows as after a single execution. -/
theorem claim_C9_append_twice_doubles (d : List Row) :
    (appendIceberg (some (appendIceberg none d)) d).length
        = 2 * (appendIceberg none d).length ∧
    (appendIceberg (some (appendIceberg (some []) d)) d).length
        = 2 * (appendIceberg (some []) d).length := by
  constructor <;> simp [appendIceberg, two_mul]

/-! ## Optimised delete+append fast path -/

theorem length_filter_add_length_filter_not (p : Row → Bool) (l : List Row) :
    (l.filter p).length + (l.filter (fun r => !p r)).length = l.length := by
  induction l with
  | nil => rfl
  | cons x rest ih =>
      cases hp : p x <;> simp [List.filter_cons, hp] <;> omega

/-- When every PyIceberg call succeeds and the single key column is present,
the fast path returns the computed count together with the delete+append
table state. -/
theorem tryOptimized_single_success (t : TableOps) (newData : ArrowTable) (keyCol : String)
    (hcol : newData.columnNames.contains keyCol = true)
    (hs : t.scanOk = true) (hd : t.deleteOk = true) (ha : t.appendOk = true) :
    tryOptimizedDeleteAppend t newData [keyCol]
      = some (t.rows.length
                - (t.rows.filter (fun r => (keyValues newData).contains r.key)).length
                + newData.rows.length,
              { t with rows := t.rows.filter (fun r => !(keyValues newData).contains r.key)
                                ++ newData.rows }) := by
  simp only [tryOptimizedDeleteAppend, scanAll, scanFiltered, tableDelete, tableAppend,
    hs, hd, ha, if_true]
  rw [if_pos hcol]

/-- When any of the calls inside the `try` block raises, the fast path
returns `None`. -/
theorem tryOptimized_none_of_flag (t : TableOps) (newData : ArrowTable)
    (uniqueKey : List String)
    (hfail : t.scanOk = false ∨ t.deleteOk = false ∨ t.appendOk = false) :
    tryOptimizedDeleteAppend t newData uniqueKey = none := by
  match uniqueKey with
  | [] => rfl
  | _ :: _ :: _ => rfl
  | [keyCol] =>
      by_cases hcol : newData.columnNames.contains keyCol = true
      · cases hs : t.scanOk <;> cases hd : t.deleteOk <;> cases ha : t.appendOk <;>
          simp_all [tryOptimizedDeleteAppend, scanAll, scanFiltered, tableDelete,
            tableAppend]
      · simp only [tryOptimizedDeleteAppend]
        rw [if_neg hcol]

/-- C6: the optimised delete+append path runs only for a single-column
unique key; on success its reported count is
`existing_count - deleted_count + len(new_data)`, which is exactly the row
count of the table it leaves behind; and when any operation inside the path
raises, the dispatcher falls back to the full-rewrite path and returns
normally instead of propagating the error. -/
theorem claim_C6_optimized_delete_append (t : TableOps) (newData : ArrowTable)
    (uniqueKey : List String) :
    (∀ n t2, tryOptimizedDeleteAppend t newData uniqueKey = some (n, t2) →
        uniqueKey.length = 1 ∧
        n = t.rows.length
              - (t.rows.filter (fun r => (keyValues newData).contains r.key)).length
              + newData.rows.length ∧
        n = t2.rows.length) ∧
    ((t.scanOk = false ∨ t.deleteOk = false ∨ t.appendOk = false) →
        deleteInsertDispatch t newData uniqueKey = deleteInsertFullRewrite t newData) := by
  constructor
  · intro n t2 hsucc
    match uniqueKey with
    | [] => simp [tryOptimizedDeleteAppend] at hsucc
    | _ :: _ :: _ => simp [tryOptimizedDeleteAppend] at hsucc
    | [keyCol] =>
        refine ⟨rfl, ?_⟩
        by_cases hcol : newData.columnNames.contains keyCol = true
        · cases hs : t.scanOk
          · rw [tryOptimized_none_of_flag t newData [keyCol] (Or.inl hs)] at hsucc
            cases hsucc
          · cases hd : t.deleteOk
            · rw [tryOptimized_none_of_flag t newData [keyCol] (Or.inr (Or.inl hd))] at hsucc
              cases hsucc
            · cases ha : t.appendOk
              · rw [tryOptimized_none_of_flag t newData [keyCol]
                  (Or.inr (Or.inr ha))] at hsucc
                cases hsucc
              · rw [tryOptimized_single_success t newData keyCol hcol hs hd ha] at hsucc
                have h := Option.some.inj hsucc
                have hn2 := congrArg Prod.fst h
                have ht22 := congrArg Prod.snd h
                simp only at hn2 ht22
                subst hn2
                subst ht22
                refine ⟨rfl, ?_⟩
                have hlen : (t.rows.filter
                      (fun r => (keyValues newData).contains r.key)).length
                    + (t.rows.filter
                      (fun r => !(keyValues newData).contains r.key)).length
                    = t.rows.length := length_filter_add_length_filter_not _ _
                simp only [List.length_append]
                omega
        · simp only [tryOptimizedDeleteAppend] at hsucc
          rw [if_neg hcol] at hsucc
          cases hsucc
  · intro hfail
    rw [deleteInsertDispatch, tryOptimized_none_of_flag t newData uniqueKey hfail]

/-- C6 witness: on a concrete all-succeeding table the fast path succeeds
with count 3 = 2 existing − 1 deleted + 2 appended (= the rows it leaves),
and with a failing scan the dispatcher returns the full-rewrite result. -/
theorem claim_C6_optimized_delete_append_witness :
    (([("k" : String)].length = 1 ∧
      3 = c6TableOk.rows.length
            - (c6TableOk.rows.filter (fun r => (keyValues c6NewData).contains r.key)).length
            + c6NewData.rows.length ∧
      3 = c6After.rows.length) ∧
     deleteInsertDispatch c6TableBad c6NewData ["k"]
        = deleteInsertFullRewrite c6TableBad c6NewData) := by
  constructor
  · exact (claim_C6_optimized_delete_append c6TableOk c6NewData ["k"]).1 3 c6After (by decide)
  · exact (claim_C6_optimized_delete_append c6TableBad c6NewData ["k"]).2 (Or.inl rfl)

/-! ## Quality gate -/

/-- C2: the quality gate fails iff some result has severity `error` and
status `fail` or `error`; prepending a result of severity `warn` — whatever
its status — never changes the gate outcome. -/
theorem claim_C2_quality_gate (results : List QualityTestResult) :
    (hasErrorFailures results = true ↔
      ∃ r ∈ results, r.severity = "error" ∧ (r.status = "fail" ∨ r.status = "error")) ∧
    (∀ w : QualityTestResult, w.severity = "warn" →
      hasErrorFailures (w :: results) = hasErrorFailures results) := by
  constructor
  · simp [hasErrorFailures, List.any_eq_true, and_assoc]
  · intro w hw
    have : (w.severity == "error") = false := by
      rw [hw]
      decide
    simp [hasErrorFailures, this]

/-- C2 witness: a warn-severity failing result alone does not fail the
gate. -/
theorem claim_C2_quality_gate_witness :
    hasErrorFailures [c2WarnFail] = hasErrorFailures [] :=
  (claim_C2_quality_gate []).2 c2WarnFail rfl

/-! ## Cancelled-status wire mapping -/

/-- C10: a run whose registry status is Cancelled is reported to clients as
wire status FAILED (the proto enum has no cancelled value), while the
registry keeps the internal Cancelled status. -/
theorem claim_C10_cancelled_reported_as_failed (reg : List (String × RegRun))
    (runId : String) (run : RegRun)
    (hfound : lookupRun reg runId = some run)
    (hcancel : run.status = RunStatus.cancelled) :
    (getRunStatus reg runId).1 = some ProtoRunStatus.failed ∧
    (getRunStatus reg runId).2 = reg ∧
    lookupRun (getRunStatus reg runId).2 runId = some run ∧
    run.status = RunStatus.cancelled := by
  refine ⟨?_, ?_, ?_, hcancel⟩ <;> simp [getRunStatus, hfound, hcancel, statusToProto]

/-- C10 witness: concrete registry with one cancelled run. -/
theorem claim_C10_cancelled_reported_as_failed_witness :
    (getRunStatus [("r9", c10Run)] "r9").1 = some ProtoRunStatus.failed ∧
    (getRunStatus [("r9", c10Run)] "r9").2 = [("r9", c10Run)] ∧
    lookupRun (getRunStatus [("r9", c10Run)] "r9").2 "r9" = some c10Run ∧
    c10Run.status = RunStatus.cancelled :=
  claim_C10_cancelled_reported_as_failed [("r9", c10Run)] "r9" c10Run (by decide) rfl

/-! ## Admission cap -/

theorem activeCount_cons (q : String × RunStatus) (l : List (String × RunStatus)) :
    activeCount (q :: l) = (if isTerminal q.2 = true then 0 else 1) + activeCount l := by
  cases h : isTerminal q.2
  · simp [activeCount, List.filter_cons, h]
    omega
  · simp [activeCount, List.filter_cons, h]

/-- A pointwise map that never turns a terminal run non-terminal cannot
increase the number of active runs. -/
theorem activeCount_map_le (f : String × RunStatus → String × RunStatus)
    (hf : ∀ p, isTerminal p.2 = true → isTerminal (f p).2 = true)
    (reg : List (String × RunStatus)) :
    activeCount (reg.map f) ≤ activeCount reg := by
  induction reg with
  | nil => simp [activeCount]
  | cons p rest ih =>
      rw [List.map_cons, activeCount_cons, activeCount_cons]
      cases ht : isTerminal p.2
      · cases htf : isTerminal (f p).2 <;> simp <;> omega
      · rw [hf p ht]
        simp
        omega

/-- Every non-retry event preserves the admission invariant. -/
theorem applyEvent_preserves_cap (cap : Nat) (reg : List (String × RunStatus)) (e : REvent)
    (hre : isRetryEvent e = false) (h : activeCount reg ≤ cap) :
    activeCount (applyEvent cap reg e) ≤ cap := by
  cases e with
  | submit id =>
      simp only [applyEvent]
      by_cases hc : cap ≤ activeCount reg
      · rw [if_pos hc]
        exact h
      · rw [if_neg hc, activeCount_cons]
        simp only [isTerminal, Bool.false_eq_true, if_false]
        omega
  | dispatch id =>
      refine le_trans (activeCount_map_le _ ?_ reg) h
      intro p hp
      by_cases hcond : (p.1 == id && p.2 == RunStatus.pending) = true
      · exfalso
        rw [Bool.and_eq_true] at hcond
        have h2 : p.2 = RunStatus.pending := by
          have := hcond.2
          simpa using this
        rw [h2] at hp
        simp [isTerminal] at hp
      · simpa [hcond] using hp
  | finish id st =>
      simp only [applyEvent]
      by_cases hts : isTerminal st = true
      · rw [if_pos hts]
        refine le_trans (activeCount_map_le _ ?_ reg) h
        intro p hp
        by_cases hcond : (p.1 == id) = true
        · simpa [hcond] using hts
        · simpa [hcond] using hp
      · rw [if_neg hts]
        exact h
  | retryResume id => simp [isRetryEvent] at hre

theorem foldl_applyEvent_cap (cap : Nat) (evts : List REvent) :
    ∀ reg, activeCount reg ≤ cap → (∀ e ∈ evts, isRetryEvent e = false) →
      activeCount (evts.foldl (applyEvent cap) reg) ≤ cap := by
  induction evts with
  | nil =>
      intro reg h _
      simpa using h
  | cons e rest ih =>
      intro reg h hall
      rw [List.foldl_cons]
      exact ih _ (applyEvent_preserves_cap cap reg e (hall e (List.mem_cons_self e rest)) h)
        (fun e' he' => hall e' (List.mem_cons_of_mem e he'))

/-- C3 counterexample: with cap 1, run `a` fails, run `b` is admitted while
`a` is terminal, then `_maybe_retry` resets `a` to Running — leaving 2
non-terminal runs in a registry whose cap is 1. -/
theorem claim_C3_counterexample :
    activeCount (runEvents 1 c3Trace) = 2 ∧ 1 < activeCount (runEvents 1 c3Trace) := by
  refine ⟨?_, ?_⟩ <;> decide

/-- C3 (amended): under any sequence of SubmitPipeline calls interleaved
with dispatches, completions and cancellations — but with no `_maybe_retry`
resumption of a failed run — the number of non-terminal runs never exceeds
the configured cap. -/
theorem claim_C3_admission_cap (cap : Nat) (evts : List REvent)
    (hnoretry : ∀ e ∈ evts, isRetryEvent e = false) :
    activeCount (runEvents cap evts) ≤ cap :=
  foldl_applyEvent_cap cap evts [] (by simp [activeCount]) hnoretry

/-- C3 witness: the retry-free prefix of the counterexample trace respects
the cap. -/
theorem claim_C3_admission_cap_witness :
    activeCount (runEvents 1 [.submit "a", .finish "a" .failed, .submit "b"]) ≤ 1 :=
  claim_C3_admission_cap 1 [.submit "a", .finish "a" .failed, .submit "b"] (by decide)

/-! ## Crash-marker reconciliation -/

theorem lookupRun_insertRun_self (reg : List (String × RegRun)) (k : String) (v : RegRun) :
    lookupRun (insertRun reg k v) k = some v := by
  induction reg with
  | nil => simp [insertRun, lookupRun]
  | cons p rest ih =>
      rw [insertRun]
      by_cases h : (p.1 == k) = true
      · rw [if_pos h]
        simp [lookupRun]
      · rw [if_neg h]
        simp only [lookupRun] at ih ⊢
        rw [List.find?_cons_of_neg _ (by simpa using h)]
        exact ih

theorem lookupRun_insertRun_ne (reg : List (String × RegRun)) (kIns kQ : String) (v : RegRun)
    (hne : kQ ≠ kIns) :
    lookupRun (insertRun reg kIns v) kQ = lookupRun reg kQ := by
  have hne' : (kIns == kQ) = false := by
    simpa using (Ne.symm hne)
  induction reg with
  | nil => simp [insertRun, lookupRun, hne']
  | cons p rest ih =>
      rw [insertRun]
      by_cases h : (p.1 == kIns) = true
      · rw [if_pos h]
        have hp : p.1 = kIns := by simpa using h
        simp only [lookupRun]
        rw [List.find?_cons_of_neg _ (by simpa using hne'),
          List.find?_cons_of_neg _ (by simp [hp, hne'])]
      · rw [if_neg h]
        by_cases hq : (p.1 == kQ) = true
        · simp only [lookupRun]
          rw [List.find?_cons_of_pos (p := fun q : String × RegRun => q.1 == kQ) _ hq,
            List.find?_cons_of_pos (p := fun q : String × RegRun => q.1 == kQ) _ hq]
        · simp only [lookupRun] at ih ⊢
          rw [List.find?_cons_of_neg _ (by simpa using hq),
            List.find?_cons_of_neg _ (by simpa using hq)]
          exact ih

theorem lookupRun_foldl_insert_not_mem (l : List CrashedRun) (k : String)
    (hk : ∀ c ∈ l, c.runId ≠ k) (reg : List (String × RegRun)) :
    lookupRun (l.foldl (fun acc cr => insertRun acc cr.runId (crashedToRun cr)) reg) k
      = lookupRun reg k := by
  induction l generalizing reg with
  | nil => rfl
  | cons c rest ih =>
      rw [List.foldl_cons,
        ih (fun c' h' => hk c' (List.mem_cons_of_mem c h'))]
      exact lookupRun_insertRun_ne reg c.runId k _
        (Ne.symm (hk c (List.mem_cons_self c rest)))

theorem lookupRun_foldl_insert_mem (l : List CrashedRun) (cr : CrashedRun)
    (hmem : cr ∈ l) (hnd : (l.map CrashedRun.runId).Nodup) (reg : List (String × RegRun)) :
    lookupRun (l.foldl (fun acc c => insertRun acc c.runId (crashedToRun c)) reg) cr.runId
      = some (crashedToRun cr) := by
  induction l generalizing reg with
  | nil => simp at hmem
  | cons c rest ih =>
      rw [List.map_cons, List.nodup_cons] at hnd
      obtain ⟨hnotin, hndrest⟩ := hnd
      rw [List.foldl_cons]
      rcases List.mem_cons.mp hmem with heq | hmemr
      · subst heq
        rw [lookupRun_foldl_insert_not_mem rest cr.runId
          (fun c' hc' he => hnotin (he ▸ List.mem_map_of_mem CrashedRun.runId hc'))
          (insertRun reg cr.runId (crashedToRun cr))]
        exact lookupRun_insertRun_self reg cr.runId (crashedToRun cr)
      · exact ih hmemr hndrest _

/-- C4 (amended): every valid crash marker present at startup — with the
recovered run ids pairwise distinct, as `write_marker` keying files by run
id guarantees — is registered as a run carrying the marker's fields, status
Failed, and the fixed error text `"Runner process restarted — run was
in-flight when the previous process crashed"`; and no marker file remains
on disk. -/
theorem claim_C4_crash_reconciliation (reg : List (String × RegRun)) (files : List MarkerFile)
    (m : MarkerFile) (cr : CrashedRun)
    (hm : m ∈ files) (hp : parseMarker m = some cr)
    (hnd : ((files.filterMap parseMarker).map CrashedRun.runId).Nodup) :
    lookupRun (reconcileCrashedRuns reg files) cr.runId
        = some ⟨cr.runId, cr.nspace, cr.layer, cr.pipelineName, cr.trigger,
                RunStatus.failed, reconcileErrorText⟩ ∧
    (collectCrashedRuns files).2 = [] := by
  refine ⟨?_, rfl⟩
  have hmem : cr ∈ files.filterMap parseMarker := List.mem_filterMap.mpr ⟨m, hm, hp⟩
  exact lookupRun_foldl_insert_mem (files.filterMap parseMarker) cr hmem hnd reg

/-- C4 counterexample: the error text registered for a reconciled run is the
code's `"Runner process restarted — ..."`, which is **not** the claim's
lower-case `"runner process restarted — ..."`. -/
theorem claim_C4_counterexample :
    (lookupRun (reconcileCrashedRuns [] [c4Marker]) "r1").map RegRun.error
        = some reconcileErrorText ∧
    reconcileErrorText
      ≠ "runner process restarted — run was in-flight when the previous process crashed" := by
  refine ⟨rfl, ?_⟩
  decide

/-- C4 witness: reconciling the concrete marker `c4Marker` registers run
`r1` as Failed with the fixed error text and leaves no marker file. -/
theorem claim_C4_crash_reconciliation_witness :
    lookupRun (reconcileCrashedRuns [] [c4Marker]) "r1"
        = some ⟨"r1", "acme", "silver", "orders", "manual", RunStatus.failed,
                reconcileErrorText⟩ ∧
    (collectCrashedRuns [c4Marker]).2 = [] :=
  claim_C4_crash_reconciliation [] [c4Marker] c4Marker c4Crashed
    (by decide) (by decide) (by decide)

/-! ## Script sandbox -/

/-- Each blocked occurrence in the claim's sense inside an expression is
caught by `_DunderAccessChecker`. -/
theorem visitorViolation_of_spec (e : PyExpr) (h : exprSpecViolation e = true) :
    visitorViolation e = true := by
  induction e with
  | name s => simp [exprSpecViolation] at h
  | strLit s => simp [exprSpecViolation] at h
  | intLit n => simp [exprSpecViolation] at h
  | attr obj a ih =>
      simp only [exprSpecViolation, Bool.or_eq_true] at h
      rcases h with h | h
      · simp only [visitorViolation, Bool.or_eq_true]
        left
        simpa using h
      · simp [visitorViolation, ih h]
  | subscript obj idx ih1 ih2 =>
      simp only [exprSpecViolation, Bool.or_eq_true] at h
      rcases h with (h | h) | h
      · simp only [visitorViolation, Bool.or_eq_true]
        left
        left
        simpa using h
      · simp [visitorViolation, ih1 h]
      · simp [visitorViolation, ih2 h]
  | call f ih =>
      simp only [exprSpecViolation] at h
      simpa [visitorViolation] using ih h

/-- A blocked occurrence in the claim's sense in a statement is caught by
one of the two validation passes. -/
theorem stmt_violation_of_spec (st : PyStmt) (h : specViolationStmt st = true) :
    visitorViolation (stmtExpr st) = true ∨ constantViolation (stmtExpr st) = true := by
  simp only [specViolationStmt, Bool.or_eq_true] at h
  rcases h with h | h
  · right
    cases st with
    | exprStmt e => cases e <;> simp_all [constantViolation, stmtExpr]
    | assign t e => simp at h
  · left
    exact visitorViolation_of_spec _ h

/-- C5: any script containing a blocked dunder name as an attribute access,
as a string-literal subscript key, or as a free-standing string literal, is
rejected by `_validate_source` with a sandbox-violation error, and its body
is never handed to `exec`. -/
theorem claim_C5_sandbox_rejects (script : List PyStmt)
    (h : script.any specViolationStmt = true) :
    (∃ msg, executePythonPipeline script = Except.error msg) ∧
    ∀ body, executePythonPipeline script ≠ Except.ok body := by
  have hval : ∃ msg, validateSource script = Except.error msg := by
    rw [List.any_eq_true] at h
    obtain ⟨st, hst, hv⟩ := h
    by_cases h1 : script.any (fun s => visitorViolation (stmtExpr s)) = true
    · rw [validateSource, if_pos h1]
      exact ⟨_, rfl⟩
    · have h2 : script.any (fun s => constantViolation (stmtExpr s)) = true := by
        rcases stmt_violation_of_spec st hv with hvi | hco
        · exact absurd (List.any_eq_true.mpr ⟨st, hst, hvi⟩) h1
        · exact List.any_eq_true.mpr ⟨st, hst, hco⟩
      rw [validateSource, if_neg h1, if_pos h2]
      exact ⟨_, rfl⟩
  obtain ⟨msg, hmsg⟩ := hval
  constructor
  · exact ⟨msg, by rw [executePythonPipeline, hmsg]⟩
  · intro body hbody
    rw [executePythonPipeline, hmsg] at hbody
    cases hbody

/-- C5 witness: the scenario-6 escape script
(`y = object.__subclasses__()`) is rejected before execution. -/
theorem claim_C5_sandbox_rejects_witness :
    (∃ msg, executePythonPipeline c5Script = Except.error msg) ∧
    ∀ body, executePythonPipeline c5Script ≠ Except.ok body :=
  claim_C5_sandbox_rejects c5Script (by decide)

/-! ## Nessie branch client -/

/-- A first-call failure that is not transient propagates immediately: no
retry, no backoff sleep. -/
theorem retryOnTransient_first_nontransient (m b : Nat) (attempts : Nat → CallOutcome)
    (e : NetError) (h0 : attempts 0 = .failure e) (ht : isTransientError e = false) :
    retryOnTransient m b attempts = (.failure e, []) := by
  cases m with
  | zero => simp [retryOnTransient, retryFrom, h0]
  | succ m' => simp [retryOnTransient, retryFrom, h0, ht]

/-- C7 counterexample: when the catalog answers 404 for the source
reference, `merge_branch` raises the 404 instead of returning normally
(while `delete_branch` on the same catalog state returns normally). -/
theorem claim_C7_counterexample :
    (mergeBranch c7Env404).1 = CallOutcome.failure (.httpError 404) ∧
    (mergeBranch c7Env404).1 ≠ CallOutcome.success ∧
    deleteBranch c7Env404 = CallOutcome.success := by
  refine ⟨rfl, ?_, rfl⟩
  decide

/-- C7 (amended): `delete_branch` tolerates a 404 answer both on its
reference lookup and on the DELETE request itself, returning normally;
`merge_branch` has no 404 handling and propagates the error. -/
theorem claim_C7_branch_404_tolerance (env : NessieEnv) :
    ((retryOnTransient 3 500 env.getRef).1 = CallOutcome.failure (.httpError 404) →
        deleteBranch env = CallOutcome.success ∧
        (mergeBranch env).1 = CallOutcome.failure (.httpError 404)) ∧
    ((retryOnTransient 3 500 env.getRef).1 = CallOutcome.success →
      env.deleteReq 0 = CallOutcome.failure (.httpError 404) →
        deleteBranch env = CallOutcome.success) := by
  constructor
  · intro h
    constructor
    · simp [deleteBranch, h, isHttp404]
    · have hmb : mergeBranch env = retryOnTransient 3 500 (fun k =>
          match (retryOnTransient 3 500 env.getRef).1 with
          | .failure e => CallOutcome.failure e
          | .success => env.mergePost k) := rfl
      have h0 : (fun k =>
          match (retryOnTransient 3 500 env.getRef).1 with
          | .failure e => CallOutcome.failure e
          | .success => env.mergePost k) 0 = CallOutcome.failure (.httpError 404) := by
        simp only [h]
      rw [hmb, retryOnTransient_first_nontransient 3 500 _ _ h0 (by decide)]
  · intro h1 h2
    simp [deleteBranch, h1, h2, isHttp404]

/-- C7 witness: the two 404 scenarios at concrete catalog states. -/
theorem claim_C7_branch_404_tolerance_witness :
    (deleteBranch c7Env404 = CallOutcome.success ∧
     (mergeBranch c7Env404).1 = CallOutcome.failure (.httpError 404)) ∧
    deleteBranch c7EnvDel404 = CallOutcome.success :=
  ⟨(claim_C7_branch_404_tolerance c7Env404).1 rfl,
   (claim_C7_branch_404_tolerance c7EnvDel404).2 rfl rfl⟩

/-- C8 counterexample: `delete_branch` is not retried — a single transient
503 on the DELETE request makes it raise, even though the retry policy the
claim prescribes would have succeeded on the next attempt. -/
theorem claim_C8_counterexample :
    deleteBranch c8EnvFlaky = CallOutcome.failure (.httpError 503) ∧
    isTransientError (.httpError 503) = true ∧
    (retryOnTransient 3 500 c8EnvFlaky.deleteReq).1 = CallOutcome.success :=
  ⟨rfl, rfl, rfl⟩

/-- C8 (amended): the decorated catalog calls (`create_branch`,
`merge_branch`, `_get_reference`) follow `retry_on_transient`: a
non-transient (e.g. 4xx) first failure propagates immediately with no
retry and no sleep; three transient failures followed by a success yield a
success after backoff sleeps of exactly 0.5 s, 1.0 s and 2.0 s (500, 1000,
2000 ms).  `delete_branch`, however, issues its DELETE exactly once: any
non-404 error of that single request — transient or not — propagates. -/
theorem claim_C8_retry_behavior (attempts : Nat → CallOutcome) (e : NetError)
    (env : NessieEnv) :
    (isTransientError e = false → attempts 0 = CallOutcome.failure e →
        retryOnTransient 3 500 attempts = (CallOutcome.failure e, [])) ∧
    ((∀ k, k < 3 → ∃ t, attempts k = CallOutcome.failure t ∧ isTransientError t = true) →
      attempts 3 = CallOutcome.success →
        retryOnTransient 3 500 attempts = (CallOutcome.success, [500, 1000, 2000])) ∧
    ((retryOnTransient 3 500 env.getRef).1 = CallOutcome.success →
      env.deleteReq 0 = CallOutcome.failure e → isHttp404 e = false →
        deleteBranch env = CallOutcome.failure e) := by
  refine ⟨?_, ?_, ?_⟩
  · intro ht h0
    exact retryOnTransient_first_nontransient 3 500 attempts e h0 ht
  · intro hk h3
    obtain ⟨t0, h0, ht0⟩ := hk 0 (by omega)
    obtain ⟨t1, h1, ht1⟩ := hk 1 (by omega)
    obtain ⟨t2, h2, ht2⟩ := hk 2 (by omega)
    simp [retryOnTransient, retryFrom, h0, ht0, h1, ht1, h2, ht2, h3]
  · intro h1 h2 h404
    simp [deleteBranch, h1, h2, h404]

/-- C8 witness: the three behaviours at concrete attempt outcomes — a 404
is never retried; timeout/connection/5xx failures are retried with 500,
1000, 2000 ms backoff; the flaky DELETE propagates its 503. -/
theorem claim_C8_retry_behavior_witness :
    retryOnTransient 3 500 (fun _ => CallOutcome.failure (.httpError 404))
        = (CallOutcome.failure (.httpError 404), []) ∧
    retryOnTransient 3 500 c8Attempts = (CallOutcome.success, [500, 1000, 2000]) ∧
    deleteBranch c8EnvFlaky = CallOutcome.failure (.httpError 503) := by
  refine ⟨?_, ?_, ?_⟩
  · exact (claim_C8_retry_behavior (fun _ => CallOutcome.failure (.httpError 404))
      (.httpError 404) c8EnvFlaky).1 (by decide) rfl
  · refine (claim_C8_retry_behavior c8Attempts (.httpError 503) c8EnvFlaky).2.1 ?_ rfl
    intro k hk
    match k, hk with
    | 0, _ => exact ⟨.timeoutError, rfl, rfl⟩
    | 1, _ => exact ⟨.urlConnError, rfl, rfl⟩
    | 2, _ => exact ⟨.httpError 500, rfl, rfl⟩
  · exact (claim_C8_retry_behavior c8Attempts (.httpError 503) c8EnvFlaky).2.2 rfl rfl rfl

end RatRunner
